import Mathlib

/-!
Verification of the SatGPT flood-mapping core (`src/agent/gee_service.py`).

The embedding below translates, in order:
 * the pixel-wise Earth Engine operations used by the pipeline
   (`Or`/`And`/`Not`/`lt`/`eq` on 0-1 valued rasters, pixel values in ℚ);
 * the mask fusion of `get_flood_change_detection` (line 733) and
   `get_flood_impact_by_geojson` (line 1615):
   `flood = (changeMask OR peekWater) AND NOT permanentWater`;
 * the temporal window policy of `_get_sar_composite` (lines 874-885),
   with Earth Engine `filterDate` end-exclusive semantics;
 * the Otsu threshold fold of `_compute_otsu_threshold` (lines 948-1015)
   and `_compute_change_otsu_threshold` (lines 1060-1120), as a fold over
   buckets with state (w0, sum0, max_var, best_threshold);
 * the detector wrappers `_otsu_water_detection` / `_otsu_change_detection`;
 * the orchestration of `get_flood_change_detection` (lines 703-733) with
   an explicit stage trace, over an abstract raster backend;
 * the land-cover impact aggregation `_assess_landcover_impact`
   (lines 1313-1391), including Python `round(x, 2)` banker rounding.
-/

/-- A histogram bucket as returned by `ee.Reducer.histogram`:
a count and the bucket mean, both real-valued (embedded in ℚ). -/
structure Bucket where
  count : ℚ
  mean : ℚ
deriving DecidableEq

/-- Pixel-wise Earth Engine `Or` on 0-1 rasters: 1 when either operand is nonzero. -/
def eeOr (a b : ℚ) : ℚ := if a ≠ 0 ∨ b ≠ 0 then 1 else 0

/-- Pixel-wise Earth Engine `And`: 1 when both operands are nonzero. -/
def eeAnd (a b : ℚ) : ℚ := if a ≠ 0 ∧ b ≠ 0 then 1 else 0

/-- Pixel-wise Earth Engine `Not`: 1 when the operand is zero. -/
def eeNot (a : ℚ) : ℚ := if a = 0 then 1 else 0

/-- Pixel-wise Earth Engine `lt`: 1 when `a < b`. -/
def eeLt (a b : ℚ) : ℚ := if a < b then 1 else 0

/-- Pixel-wise Earth Engine `eq` against an integer class value: 1 when equal. -/
def eeEqInt (a b : ℤ) : ℚ := if a = b then 1 else 0

/-- A boolean pixel as its 0-1 raster value. -/
def boolPixel (x : Bool) : ℚ := if x then 1 else 0

/-- Mask fusion from `get_flood_change_detection`:
`flood_area = (flood_by_change.Or(peek_water)).And(permanent_water.Not())`
(gee_service.py line 733; identically at line 1615). -/
def fuse_flood_pixel (changeMask peekWater permanentWater : ℚ) : ℚ :=
  eeAnd (eeOr changeMask peekWater) (eeNot permanentWater)

/-- The directional search policy of `_get_sar_composite`. -/
inductive SearchDirection
  | before
  | after
  | both
deriving DecidableEq

/-- The `(start_date, end_date)` pair computed by `_get_sar_composite`
(gee_service.py lines 874-885), with dates as integer day numbers:
`before` gives `(t - r, t)`, `after` gives `(t, t + r)`,
`both` gives `(t - r, t + r)`. -/
def compositeWindow (t r : ℤ) : SearchDirection → ℤ × ℤ
  | SearchDirection.before => (t - r, t)
  | SearchDirection.after => (t, t + r)
  | SearchDirection.both => (t - r, t + r)

/-- Membership of a date in a window under Earth Engine `filterDate`
semantics: the start is included, the end is excluded. -/
def inWindow (w : ℤ × ℤ) (d : ℤ) : Prop := w.1 ≤ d ∧ d < w.2

instance (w : ℤ × ℤ) (d : ℤ) : Decidable (inWindow w d) := by
  unfold inWindow
  infer_instance

/-- The accumulator threaded through the Otsu iteration
(`otsu_iteration` in gee_service.py, lines 967-1002): running left-side
weight `w0`, running left-side weighted sum `sum0`, the tracked maximum
between-class variance, and the threshold at which it was attained. -/
structure OtsuState where
  w0 : ℚ
  sum0 : ℚ
  max_var : ℚ
  best_threshold : ℚ
deriving DecidableEq

/-- Total weight of a histogram: `total = counts.reduce(sum)` (line 960). -/
def totalCount (hist : List Bucket) : ℚ := (hist.map Bucket.count).sum

/-- Total weighted sum: `sum_all = counts.multiply(means).reduce(sum)` (line 963). -/
def totalSum (hist : List Bucket) : ℚ :=
  (hist.map fun b => b.count * b.mean).sum

/-- Between-class variance of a split with left weight `w0` and left weighted
sum `sum0` (gee_service.py lines 976-987): `w1 = total - w0`; the value is
`valid * (w0 * w1 * (mean0 - mean1)^2)` with `valid = (w0 > 0) and (w1 > 0)`,
`mean0 = sum0/w0`, `mean1 = (sum_all - sum0)/w1`; multiplying by the 0-1
indicator `valid` is the `if` below, since a finite product times 0 is 0. -/
def betweenVar (total sum_all w0 sum0 : ℚ) : ℚ :=
  if 0 < w0 ∧ 0 < total - w0 then
    w0 * (total - w0) * (sum0 / w0 - (sum_all - sum0) / (total - w0)) ^ 2
  else 0

/-- One step of `otsu_iteration` (lines 967-1002): accumulate the bucket into
`w0`/`sum0`, and replace the tracked maximum and threshold exactly when the
new between-class variance is strictly greater (`between_var.gt(max_var)`). -/
def otsuStep (total sum_all : ℚ) (st : OtsuState) (b : Bucket) : OtsuState :=
  if st.max_var <
      betweenVar total sum_all (st.w0 + b.count) (st.sum0 + b.count * b.mean) then
    ⟨st.w0 + b.count, st.sum0 + b.count * b.mean,
      betweenVar total sum_all (st.w0 + b.count) (st.sum0 + b.count * b.mean),
      b.mean⟩
  else
    ⟨st.w0 + b.count, st.sum0 + b.count * b.mean, st.max_var, st.best_threshold⟩

/-- The Otsu fold over all buckets in scan order, from the initial state
`(w0, sum0, max_var, best_threshold) = (0, 0, 0, init)` (lines 1004-1013). -/
def otsuFold (total sum_all init : ℚ) (hist : List Bucket) : OtsuState :=
  List.foldl (otsuStep total sum_all) ⟨0, 0, 0, init⟩ hist

/-- The full solver run: totals computed from the histogram itself, as in
`_compute_otsu_threshold`, parametric in the initial threshold. -/
def otsuRun (hist : List Bucket) (init : ℚ) : OtsuState :=
  otsuFold (totalCount hist) (totalSum hist) init hist

/-- The solver `_compute_otsu_threshold` (lines 948-1015): initial threshold -20,
returns `best_threshold` of the final state. -/
def compute_otsu_threshold (hist : List Bucket) : ℚ :=
  (otsuRun hist (-20)).best_threshold

/-- The solver `_compute_change_otsu_threshold` (lines 1060-1120): identical iteration
with initial threshold -3. -/
def compute_change_otsu_threshold (hist : List Bucket) : ℚ :=
  (otsuRun hist (-3)).best_threshold

/-- Left-side weight of split index `k`: sum of the counts of buckets `0..k`. -/
def w0At (hist : List Bucket) (k : ℕ) : ℚ := totalCount (hist.take (k + 1))

/-- Left-side weighted sum of split index `k`. -/
def sum0At (hist : List Bucket) (k : ℕ) : ℚ := totalSum (hist.take (k + 1))

/-- Between-class variance of split index `k`, with the code's validity
guard (`w0 > 0 and w1 > 0`), relative to arbitrary totals `T`, `S`. -/
def splitVar (T S : ℚ) (hist : List Bucket) (k : ℕ) : ℚ :=
  betweenVar T S (w0At hist k) (sum0At hist k)

/-- Between-class variance of split index `k` as the specification words it:
`w0*w1*(mean0 - mean1)^2`, taken as 0 when `w0 == 0` or `w1 == 0`, with
`w1 = W - w0`, `mean0 = sum0/w0`, `mean1 = (S - sum0)/w1`. -/
def specVar (hist : List Bucket) (k : ℕ) : ℚ :=
  if w0At hist k = 0 ∨ totalCount hist - w0At hist k = 0 then 0
  else
    w0At hist k * (totalCount hist - w0At hist k) *
      (sum0At hist k / w0At hist k -
        (totalSum hist - sum0At hist k) / (totalCount hist - w0At hist k)) ^ 2

/-- Brute-force maximum of the code-guarded split variances over all indices. -/
def maxSplitVar (T S : ℚ) (hist : List Bucket) : ℚ :=
  ((List.range hist.length).map (splitVar T S hist)).foldl max 0

/-- Brute-force maximum of the specification-worded split variances. -/
def maxSpecVar (hist : List Bucket) : ℚ :=
  ((List.range hist.length).map (specVar hist)).foldl max 0

/-- A histogram with every bucket count multiplied by the same constant. -/
def scaleCounts (c : ℚ) (hist : List Bucket) : List Bucket :=
  hist.map fun b => ⟨c * b.count, b.mean⟩

/-- The detector `_otsu_water_detection` (lines 909-946) at pixel level: the VV histogram
over the region is supplied by the backend reducer; the returned mask is
`vv.lt(threshold)` with the threshold from `_compute_otsu_threshold`. -/
def otsu_water_detection {P : Type} (histVV : List Bucket) (vv : P → ℚ)
    (p : P) : ℚ :=
  eeLt (vv p) (compute_otsu_threshold histVV)

/-- The detector `_otsu_change_detection` (lines 1017-1058) at pixel level: the mask is
`change.lt(threshold)` with the threshold from
`_compute_change_otsu_threshold`. -/
def otsu_change_detection {P : Type} (histChange : List Bucket)
    (change : P → ℚ) (p : P) : ℚ :=
  eeLt (change p) (compute_change_otsu_threshold histChange)

/-- The change index of `get_flood_change_detection` (line 717):
`change = vv_peek.subtract(vv_pre)`, the during-minus-before dB difference. -/
def change_index {P : Type} (vvPre vvPeek : P → ℚ) (p : P) : ℚ :=
  vvPeek p - vvPre p

/-- The raster backend as `_get_sar_composite` uses it: a qualifying
observation count per time window (`s1_collection.size().getInfo()`, which
may fail with a backend error) and a median composite per window. -/
structure SarBackend (α : Type) where
  obsCount : ℤ × ℤ → Except String ℕ
  medianComposite : ℤ × ℤ → α

/-- The builder `_get_sar_composite` (lines 851-907): build the directional window; if
the size query raises, the `except` branch returns `None`; if the count is
zero, return `None`; otherwise return the median composite. -/
def get_sar_composite {α : Type} (b : SarBackend α) (t r : ℤ)
    (dir : SearchDirection) : Option α :=
  match b.obsCount (compositeWindow t r dir) with
  | Except.error _ => none
  | Except.ok 0 => none
  | Except.ok (_ + 1) => some (b.medianComposite (compositeWindow t r dir))

/-- The pipeline stages of `get_flood_change_detection`, for tracing which
computations a run performs. -/
inductive Stage
  | compositeBuild
  | changeDetection
  | waterDetection
  | maskFusion
deriving DecidableEq

/-- Orchestration of `get_flood_change_detection` (lines 703-733) over an
abstract backend, with the detectors and the fusion abstracted as functions
and an explicit trace of the stages the run performs: build the `before`
composite of `pre_date` and the `after` composite of `peek_date`; if either
is `None`, return the cannot-proceed error having run nothing else;
otherwise detect change on `peek - pre`, detect peak water, and fuse. -/
def get_flood_change_detection_run {α β : Type} (b : SarBackend α)
    (detectChange : α → α → β) (detectWater : α → β) (fuse : β → β → β)
    (preDate peekDate r : ℤ) : Except String β × List Stage :=
  match get_sar_composite b preDate r SearchDirection.before,
      get_sar_composite b peekDate r SearchDirection.after with
  | some preImg, some peekImg =>
      (Except.ok (fuse (detectChange preImg peekImg) (detectWater peekImg)),
        [Stage.compositeBuild, Stage.compositeBuild, Stage.changeDetection,
          Stage.waterDetection, Stage.maskFusion])
  | _, _ =>
      (Except.error "无法获取足够的SAR影像进行变化检测",
        [Stage.compositeBuild, Stage.compositeBuild])

/-- Python `round(x, 2)` on exact decimal values: round half to even at the
second decimal place. -/
def pyround2 (x : ℚ) : ℚ :=
  if 100 * x - ⌊100 * x⌋ < 1 / 2 then (⌊100 * x⌋ : ℚ) / 100
  else if 1 / 2 < 100 * x - ⌊100 * x⌋ then ((⌊100 * x⌋ : ℚ) + 1) / 100
  else if ⌊100 * x⌋ % 2 = 0 then (⌊100 * x⌋ : ℚ) / 100
  else ((⌊100 * x⌋ : ℚ) + 1) / 100

/-- The fixed land-cover class set of `_assess_landcover_impact`
(lines 1343-1350), in the code's iteration order: cropland 40, built-up 50,
forest 10, grassland 30, shrubland 20, wetland 90. -/
def landcover_classes : List ℤ := [40, 50, 10, 30, 20, 90]

/-- The affected area of one land-cover class (lines 1356-1366): the sum
over the region of `flood_mask * (worldcover == class) * pixel_area_km2`. -/
def landcover_affected_area {P : Type} (pixels : List P) (floodMask : P → ℚ)
    (worldcover : P → ℤ) (pixelAreaKm2 : P → ℚ) (cls : ℤ) : ℚ :=
  (pixels.map fun p =>
    floodMask p * eeEqInt (worldcover p) cls * pixelAreaKm2 p).sum

/-- The aggregator `_assess_landcover_impact` (lines 1313-1391): for each class of the
fixed set, compute the affected area; record the class, with the area
rounded via `round(area, 2)`, only when the raw area exceeds 0.01 km². -/
def assess_landcover_impact {P : Type} (pixels : List P) (floodMask : P → ℚ)
    (worldcover : P → ℤ) (pixelAreaKm2 : P → ℚ) : List (ℤ × ℚ) :=
  landcover_classes.filterMap fun cls =>
    if 1 / 100 <
        landcover_affected_area pixels floodMask worldcover pixelAreaKm2 cls
    then
      some (cls,
        pyround2
          (landcover_affected_area pixels floodMask worldcover pixelAreaKm2
            cls))
    else none

/-- A two-bucket demonstration histogram used by concrete witnesses. -/
def demoHist2 : List Bucket := [⟨2, -10⟩, ⟨3, 5⟩]

/-- A single-bucket demonstration histogram (degenerate case). -/
def demoHist1 : List Bucket := [⟨5, 7⟩]

/-- A backend whose observation count query always reports zero imagery. -/
def cBackendZero : SarBackend ℚ := ⟨fun _ => Except.ok 0, fun _ => 0⟩

/-- A backend whose observation count query always raises a service error. -/
def cBackendFail : SarBackend ℚ :=
  ⟨fun _ => Except.error "network unreachable", fun _ => 0⟩

/-- A concrete change detector for witnesses. -/
def cDetectChange (a b : ℚ) : ℚ := a - b

/-- A concrete water detector for witnesses. -/
def cDetectWater (a : ℚ) : ℚ := a

/-- A concrete fusion function for witnesses. -/
def cFuse (a b : ℚ) : ℚ := a + b

/-- A one-pixel region for the land-cover counterexample. -/
def cPixels : List ℕ := [0]

/-- A flood mask covering the one pixel. -/
def cFlood (_ : ℕ) : ℚ := 1

/-- A land-cover raster labelling the pixel as cropland (class 40). -/
def cWc (_ : ℕ) : ℤ := 40

/-- A pixel-area raster of 0.1234 km² for the one pixel. -/
def cArea (_ : ℕ) : ℚ := 1234 / 10000

/-- C1: At every pixel, the fused flood mask of `get_flood_change_detection`
(line 733) and `get_flood_impact_by_geojson` (line 1615) equals
`(changeMask OR duringWaterMask) AND NOT permanentWaterMask`, over all 8
boolean combinations; in particular a permanent-water pixel is never in the
fused result. -/
theorem fused_mask_boolean_semantics (c w p : Bool) :
    fuse_flood_pixel (boolPixel c) (boolPixel w) (boolPixel p)
        = boolPixel ((c || w) && !p) ∧
      fuse_flood_pixel (boolPixel c) (boolPixel w) (boolPixel true) = 0 := by
  constructor
  · cases c <;> cases w <;> cases p <;> decide
  · cases c <;> cases w <;> decide

/-- C5: The `before` window of `_get_sar_composite` is `[t - r, t)` under
`filterDate` semantics: it strictly excludes the target date `t`; the `after`
window for the same target date starts at `t`, so the two windows never share
a date. -/
theorem before_window_excludes_target (t r d : ℤ) :
    (compositeWindow t r SearchDirection.before).2 = t ∧
      (inWindow (compositeWindow t r SearchDirection.before) d ↔
        t - r ≤ d ∧ d < t) ∧
      ¬inWindow (compositeWindow t r SearchDirection.before) t ∧
      (compositeWindow t r SearchDirection.after).1 = t ∧
      ¬(inWindow (compositeWindow t r SearchDirection.before) d ∧
          inWindow (compositeWindow t r SearchDirection.after) d) := by
  refine ⟨rfl, Iff.rfl, ?_, rfl, ?_⟩
  · rintro ⟨-, hlt⟩
    exact lt_irrefl t hlt
  · rintro ⟨⟨-, hbefore⟩, ⟨hafter, -⟩⟩
    exact absurd hbefore (not_lt.mpr hafter)

/-- The seed of a left fold by `max` bounds the fold from below. -/
theorem le_foldl_max_init (a : ℚ) (xs : List ℚ) : a ≤ xs.foldl max a := by
  induction xs generalizing a with
  | nil => exact le_refl a
  | cons x t ih => exact le_trans (le_max_left a x) (ih (max a x))

/-- Every member of a list bounds its `max` fold from below. -/
theorem mem_le_foldl_max (a x : ℚ) (xs : List ℚ) :
    x ∈ xs → x ≤ xs.foldl max a := by
  induction xs generalizing a with
  | nil => intro hx; exact absurd hx (List.not_mem_nil x)
  | cons y t ih =>
      intro hx
      rcases List.mem_cons.mp hx with h | h
      · subst h
        exact le_trans (le_max_right a x) (le_foldl_max_init (max a x) t)
      · exact ih (max a y) h

/-- A `max` fold over elements all below the seed returns the seed. -/
theorem foldl_max_of_le (a : ℚ) (xs : List ℚ) :
    (∀ x ∈ xs, x ≤ a) → xs.foldl max a = a := by
  induction xs generalizing a with
  | nil => intro _; rfl
  | cons y t ih =>
      intro h
      have hy : y ≤ a := h y (List.mem_cons_self y t)
      show t.foldl max (max a y) = a
      rw [max_eq_left hy]
      exact ih a fun x hx => h x (List.mem_cons_of_mem y hx)

/-- Histogram weight is additive under concatenation. -/
theorem totalCount_append (l l' : List Bucket) :
    totalCount (l ++ l') = totalCount l + totalCount l' := by
  unfold totalCount
  rw [List.map_append, List.sum_append]

/-- Histogram weighted sum is additive under concatenation. -/
theorem totalSum_append (l l' : List Bucket) :
    totalSum (l ++ l') = totalSum l + totalSum l' := by
  unfold totalSum
  rw [List.map_append, List.sum_append]

/-- Indexing an appended list within the left part. -/
theorem get_append_left_bucket (l : List Bucket) :
    ∀ (l' : List Bucket) (j : ℕ) (hj : j < l.length)
      (hj2 : j < (l ++ l').length),
      (l ++ l').get ⟨j, hj2⟩ = l.get ⟨j, hj⟩ := by
  induction l with
  | nil =>
      intro l' j hj _
      exact absurd hj (Nat.not_lt_zero j)
  | cons a t ih =>
      intro l' j hj hj2
      cases j with
      | zero => rfl
      | succ j' =>
          exact ih l' j' (Nat.lt_of_succ_lt_succ hj)
            (Nat.lt_of_succ_lt_succ hj2)

/-- Indexing an appended singleton at the final position. -/
theorem get_append_last_bucket (l : List Bucket) (b : Bucket)
    (h : l.length < (l ++ [b]).length) :
    (l ++ [b]).get ⟨l.length, h⟩ = b := by
  induction l with
  | nil => rfl
  | cons a t ih => exact ih (Nat.lt_of_succ_lt_succ h)

/-- Appending a bucket does not change earlier split weights. -/
theorem w0At_append_left (l : List Bucket) (b : Bucket) (j : ℕ)
    (hj : j < l.length) : w0At (l ++ [b]) j = w0At l j := by
  unfold w0At
  rw [List.take_append_of_le_length (by omega)]

/-- Appending a bucket does not change earlier split weighted sums. -/
theorem sum0At_append_left (l : List Bucket) (b : Bucket) (j : ℕ)
    (hj : j < l.length) : sum0At (l ++ [b]) j = sum0At l j := by
  unfold sum0At
  rw [List.take_append_of_le_length (by omega)]

/-- The split weight at the appended index is the whole previous weight plus
the new bucket count. -/
theorem w0At_append_last (l : List Bucket) (b : Bucket) :
    w0At (l ++ [b]) l.length = totalCount l + b.count := by
  unfold w0At
  rw [List.take_of_length_le (by simp), totalCount_append]
  simp [totalCount]

/-- The split weighted sum at the appended index. -/
theorem sum0At_append_last (l : List Bucket) (b : Bucket) :
    sum0At (l ++ [b]) l.length = totalSum l + b.count * b.mean := by
  unfold sum0At
  rw [List.take_of_length_le (by simp), totalSum_append]
  simp [totalSum]

/-- Appending a bucket does not change earlier split variances. -/
theorem splitVar_append_left (T S : ℚ) (l : List Bucket) (b : Bucket)
    (j : ℕ) (hj : j < l.length) :
    splitVar T S (l ++ [b]) j = splitVar T S l j := by
  unfold splitVar
  rw [w0At_append_left l b j hj, sum0At_append_left l b j hj]

/-- The brute-force maximum over an appended histogram. -/
theorem maxSplitVar_append (T S : ℚ) (l : List Bucket) (b : Bucket) :
    maxSplitVar T S (l ++ [b])
      = max (maxSplitVar T S l) (splitVar T S (l ++ [b]) l.length) := by
  have hlen : (l ++ [b]).length = l.length + 1 := by simp
  have hmap : (List.range l.length).map (splitVar T S (l ++ [b]))
      = (List.range l.length).map (splitVar T S l) :=
    List.map_congr_left fun j hj =>
      splitVar_append_left T S l b j (List.mem_range.mp hj)
  unfold maxSplitVar
  rw [hlen, List.range_succ, List.map_append, List.foldl_append, hmap]
  rfl

/-- The brute-force maximum split variance is nonnegative. -/
theorem maxSplitVar_nonneg (T S : ℚ) (hist : List Bucket) :
    0 ≤ maxSplitVar T S hist :=
  le_foldl_max_init 0 _

/-- Each split variance is bounded by the brute-force maximum. -/
theorem splitVar_le_maxSplitVar (T S : ℚ) (hist : List Bucket) (j : ℕ)
    (hj : j < hist.length) :
    splitVar T S hist j ≤ maxSplitVar T S hist :=
  mem_le_foldl_max 0 _ _
    (List.mem_map_of_mem (splitVar T S hist) (List.mem_range.mpr hj))

/-- Invariant of the Otsu fold: the running state carries the prefix weight
and weighted sum, the tracked maximum equals the brute-force maximum over
processed split indices, the threshold is the initial one while no positive
variance has been seen, and otherwise it is the mean of the first split
index attaining the maximum. -/
theorem otsu_fold_spec (T S init : ℚ) (hist : List Bucket) :
    (otsuFold T S init hist).w0 = totalCount hist ∧
      (otsuFold T S init hist).sum0 = totalSum hist ∧
      (otsuFold T S init hist).max_var = maxSplitVar T S hist ∧
      ((otsuFold T S init hist).max_var = 0 →
        (otsuFold T S init hist).best_threshold = init) ∧
      (0 < (otsuFold T S init hist).max_var →
        ∃ k, ∃ hk : k < hist.length,
          splitVar T S hist k = (otsuFold T S init hist).max_var ∧
            (∀ j, j < k →
              splitVar T S hist j < (otsuFold T S init hist).max_var) ∧
            (otsuFold T S init hist).best_threshold
              = (hist.get ⟨k, hk⟩).mean) := by
  induction hist using List.reverseRecOn with
  | nil =>
      exact ⟨rfl, rfl, rfl, fun _ => rfl, fun h => absurd h (lt_irrefl 0)⟩
  | append_singleton l b ih =>
      obtain ⟨hw, hs, hm, h0, hpos⟩ := ih
      have hfold : otsuFold T S init (l ++ [b])
          = otsuStep T S (otsuFold T S init l) b := by
        unfold otsuFold
        rw [List.foldl_append]
        rfl
      set st := otsuFold T S init l with hst
      have hbv : betweenVar T S (st.w0 + b.count) (st.sum0 + b.count * b.mean)
          = splitVar T S (l ++ [b]) l.length := by
        unfold splitVar
        rw [hw, hs, w0At_append_last, sum0At_append_last]
      have hmaxapp : maxSplitVar T S (l ++ [b])
          = max (maxSplitVar T S l) (splitVar T S (l ++ [b]) l.length) :=
        maxSplitVar_append T S l b
      have hlen : l.length < (l ++ [b]).length := by simp
      have hst_nonneg : 0 ≤ st.max_var := by
        rw [hm]
        exact maxSplitVar_nonneg T S l
      by_cases hlt : st.max_var <
          betweenVar T S (st.w0 + b.count) (st.sum0 + b.count * b.mean)
      · have hstep : otsuStep T S st b
            = ⟨st.w0 + b.count, st.sum0 + b.count * b.mean,
                betweenVar T S (st.w0 + b.count) (st.sum0 + b.count * b.mean),
                b.mean⟩ := by
          unfold otsuStep
          rw [if_pos hlt]
        rw [hfold, hstep]
        have hmaxlt : maxSplitVar T S l < splitVar T S (l ++ [b]) l.length := by
          rw [← hm, ← hbv]
          exact hlt
        refine ⟨?_, ?_, ?_, ?_, ?_⟩
        · show st.w0 + b.count = totalCount (l ++ [b])
          rw [hw, totalCount_append]
          simp [totalCount]
        · show st.sum0 + b.count * b.mean = totalSum (l ++ [b])
          rw [hs, totalSum_append]
          simp [totalSum]
        · show betweenVar T S (st.w0 + b.count) (st.sum0 + b.count * b.mean)
            = maxSplitVar T S (l ++ [b])
          rw [hbv, hmaxapp, max_eq_right (le_of_lt hmaxlt)]
        · intro hzero
          exact absurd hzero (ne_of_gt (lt_of_le_of_lt hst_nonneg hlt))
        · intro _
          refine ⟨l.length, hlen, hbv.symm, ?_, ?_⟩
          · intro j hj
            rw [splitVar_append_left T S l b j hj]
            have h1 : splitVar T S l j ≤ st.max_var := by
              rw [hm]
              exact splitVar_le_maxSplitVar T S l j hj
            exact lt_of_le_of_lt h1 hlt
          · rw [get_append_last_bucket l b hlen]
      · have hstep : otsuStep T S st b
            = ⟨st.w0 + b.count, st.sum0 + b.count * b.mean, st.max_var,
                st.best_threshold⟩ := by
          unfold otsuStep
          rw [if_neg hlt]
        rw [hfold, hstep]
        have hle : splitVar T S (l ++ [b]) l.length ≤ st.max_var := by
          rw [← hbv]
          exact not_lt.mp hlt
        refine ⟨?_, ?_, ?_, ?_, ?_⟩
        · show st.w0 + b.count = totalCount (l ++ [b])
          rw [hw, totalCount_append]
          simp [totalCount]
        · show st.sum0 + b.count * b.mean = totalSum (l ++ [b])
          rw [hs, totalSum_append]
          simp [totalSum]
        · show st.max_var = maxSplitVar T S (l ++ [b])
          rw [hmaxapp, ← hm]
          exact (max_eq_left hle).symm
        · exact h0
        · intro hp
          obtain ⟨k, hk, he, hltj, hb⟩ := hpos hp
          have hk' : k < (l ++ [b]).length := by
            rw [List.length_append]
            omega
          refine ⟨k, hk', ?_, ?_, ?_⟩
          · rw [splitVar_append_left T S l b k hk]
            exact he
          · intro j hj
            rw [splitVar_append_left T S l b j (lt_trans hj hk)]
            exact hltj j hj
          · rw [get_append_left_bucket l [b] k hk hk']
            exact hb

/-- With nonnegative counts the split weight is nonnegative. -/
theorem w0At_nonneg (hist : List Bucket) (hc : ∀ b ∈ hist, 0 ≤ b.count)
    (k : ℕ) : 0 ≤ w0At hist k := by
  unfold w0At totalCount
  apply List.sum_nonneg
  intro x hx
  obtain ⟨b, hb, rfl⟩ := List.mem_map.mp hx
  exact hc b (List.take_subset _ _ hb)

/-- With nonnegative counts the split weight never exceeds the total. -/
theorem w0At_le_totalCount (hist : List Bucket)
    (hc : ∀ b ∈ hist, 0 ≤ b.count) (k : ℕ) :
    w0At hist k ≤ totalCount hist := by
  have hsplit : totalCount (hist.take (k + 1)) + totalCount (hist.drop (k + 1))
      = totalCount hist := by
    rw [← totalCount_append, List.take_append_drop]
  have hdrop : 0 ≤ totalCount (hist.drop (k + 1)) := by
    unfold totalCount
    apply List.sum_nonneg
    intro x hx
    obtain ⟨b, hb, rfl⟩ := List.mem_map.mp hx
    exact hc b (List.drop_subset _ _ hb)
  unfold w0At
  linarith

/-- With nonnegative counts, the specification's guard `w0 = 0 or w1 = 0`
agrees with the code's guard `w0 > 0 and w1 > 0`, so the two split-variance
readings coincide. -/
theorem specVar_eq_splitVar (hist : List Bucket)
    (hc : ∀ b ∈ hist, 0 ≤ b.count) (k : ℕ) :
    specVar hist k = splitVar (totalCount hist) (totalSum hist) hist k := by
  have h0 := w0At_nonneg hist hc k
  have h1 := w0At_le_totalCount hist hc k
  unfold specVar splitVar betweenVar
  by_cases hz : w0At hist k = 0 ∨ totalCount hist - w0At hist k = 0
  · rw [if_pos hz, if_neg]
    rintro ⟨ha, hb⟩
    rcases hz with h | h
    · rw [h] at ha
      exact lt_irrefl 0 ha
    · rw [h] at hb
      exact lt_irrefl 0 hb
  · have hzz := hz
    push_neg at hzz
    have hw0 : 0 < w0At hist k := lt_of_le_of_ne h0 (Ne.symm hzz.1)
    have hw1 : 0 < totalCount hist - w0At hist k :=
      lt_of_le_of_ne (by linarith) (Ne.symm hzz.2)
    rw [if_neg hz, if_pos ⟨hw0, hw1⟩]

/-- C2: For every histogram with nonnegative counts, the tracked maximum
between-class variance of the Otsu fold equals the brute-force maximum of
`w0*w1*(mean0 - mean1)^2` over all split indices (0 at degenerate splits),
and when that maximum is positive the returned threshold is the bucket mean
at the smallest index attaining it. -/
theorem otsu_tracked_max_is_bruteforce_max (hist : List Bucket) (init : ℚ)
    (hc : ∀ b ∈ hist, 0 ≤ b.count) :
    (otsuRun hist init).max_var = maxSpecVar hist ∧
      (0 < maxSpecVar hist →
        ∃ k, ∃ hk : k < hist.length,
          specVar hist k = maxSpecVar hist ∧
            (∀ j, j < k → specVar hist j < maxSpecVar hist) ∧
            (otsuRun hist init).best_threshold
              = (hist.get ⟨k, hk⟩).mean) := by
  have hmax : maxSpecVar hist
      = maxSplitVar (totalCount hist) (totalSum hist) hist := by
    unfold maxSpecVar maxSplitVar
    congr 1
    exact List.map_congr_left fun j _ => specVar_eq_splitVar hist hc j
  obtain ⟨hw, hs, hm, h0, hpos⟩ :=
    otsu_fold_spec (totalCount hist) (totalSum hist) init hist
  unfold otsuRun
  constructor
  · rw [hmax]
    exact hm
  · intro hp
    have hp' : 0 < (otsuFold (totalCount hist) (totalSum hist) init
        hist).max_var := by
      rw [hm, ← hmax]
      exact hp
    obtain ⟨k, hk, he, hj, hb⟩ := hpos hp'
    refine ⟨k, hk, ?_, ?_, hb⟩
    · rw [specVar_eq_splitVar hist hc k, hmax, he]
      exact hm
    · intro j hjk
      rw [specVar_eq_splitVar hist hc j, hmax]
      have h2 := hj j hjk
      rw [hm] at h2
      exact h2

/-- Witness for C2 on a concrete two-bucket histogram with an arbitrary
initial threshold. -/
theorem otsu_tracked_max_witness :
    (∀ b ∈ demoHist2, 0 ≤ b.count) ∧
      ((otsuRun demoHist2 99).max_var = maxSpecVar demoHist2 ∧
        (0 < maxSpecVar demoHist2 →
          ∃ k, ∃ hk : k < demoHist2.length,
            specVar demoHist2 k = maxSpecVar demoHist2 ∧
              (∀ j, j < k → specVar demoHist2 j < maxSpecVar demoHist2) ∧
              (otsuRun demoHist2 99).best_threshold
                = (demoHist2.get ⟨k, hk⟩).mean)) :=
  ⟨by decide, otsu_tracked_max_is_bruteforce_max demoHist2 99 (by decide)⟩

/-- A list of nonnegative counts with positive sum has a populated bucket. -/
theorem exists_pos_count (l : List Bucket) (hc : ∀ b ∈ l, 0 ≤ b.count)
    (h : 0 < totalCount l) : ∃ b ∈ l, 0 < b.count := by
  by_contra hcon
  push_neg at hcon
  have hzero : totalCount l = 0 := by
    unfold totalCount
    apply List.sum_eq_zero
    intro x hx
    obtain ⟨b, hb, rfl⟩ := List.mem_map.mp hx
    exact le_antisymm (hcon b hb) (hc b hb)
  rw [hzero] at h
  exact lt_irrefl 0 h

/-- C3: A histogram with fewer than two populated buckets admits no valid
split, so both solver variants return their caller-supplied initial
thresholds (-20 for water detection, -3 for change detection) unchanged. -/
theorem otsu_degenerate_histogram_fallback (hist : List Bucket)
    (hc : ∀ b ∈ hist, 0 ≤ b.count)
    (hp : (hist.filter fun b => decide (0 < b.count)).length < 2) :
    compute_otsu_threshold hist = -20 ∧
      compute_change_otsu_threshold hist = -3 := by
  have hzero : ∀ k,
      splitVar (totalCount hist) (totalSum hist) hist k = 0 := by
    intro k
    unfold splitVar betweenVar
    apply if_neg
    rintro ⟨h1, h2⟩
    obtain ⟨b1, hb1, hb1pos⟩ := exists_pos_count (hist.take (k + 1))
      (fun b hb => hc b (List.take_subset _ _ hb)) h1
    have h2' : 0 < totalCount (hist.drop (k + 1)) := by
      have hsplit : totalCount (hist.take (k + 1))
          + totalCount (hist.drop (k + 1)) = totalCount hist := by
        rw [← totalCount_append, List.take_append_drop]
      unfold w0At at h2
      linarith
    obtain ⟨b2, hb2, hb2pos⟩ := exists_pos_count (hist.drop (k + 1))
      (fun b hb => hc b (List.drop_subset _ _ hb)) h2'
    have hmem1 : b1 ∈ (hist.take (k + 1)).filter
        fun b => decide (0 < b.count) :=
      List.mem_filter.mpr ⟨hb1, decide_eq_true hb1pos⟩
    have hmem2 : b2 ∈ (hist.drop (k + 1)).filter
        fun b => decide (0 < b.count) :=
      List.mem_filter.mpr ⟨hb2, decide_eq_true hb2pos⟩
    have hlen1 : 0 < ((hist.take (k + 1)).filter
        fun b => decide (0 < b.count)).length :=
      List.length_pos_of_mem hmem1
    have hlen2 : 0 < ((hist.drop (k + 1)).filter
        fun b => decide (0 < b.count)).length :=
      List.length_pos_of_mem hmem2
    have hfl : (hist.filter fun b => decide (0 < b.count)).length
        = ((hist.take (k + 1)).filter fun b => decide (0 < b.count)).length
          + ((hist.drop (k + 1)).filter
              fun b => decide (0 < b.count)).length := by
      conv_lhs => rw [← List.take_append_drop (k + 1) hist]
      rw [List.filter_append, List.length_append]
    omega
  have hmax0 : maxSplitVar (totalCount hist) (totalSum hist) hist = 0 := by
    unfold maxSplitVar
    apply foldl_max_of_le
    intro x hx
    obtain ⟨j, hj, rfl⟩ := List.mem_map.mp hx
    rw [hzero j]
  constructor
  · obtain ⟨-, -, hm, h0, -⟩ :=
      otsu_fold_spec (totalCount hist) (totalSum hist) (-20) hist
    exact h0 (by rw [hm, hmax0])
  · obtain ⟨-, -, hm, h0, -⟩ :=
      otsu_fold_spec (totalCount hist) (totalSum hist) (-3) hist
    exact h0 (by rw [hm, hmax0])

/-- Witness for C3 on a concrete single-bucket histogram. -/
theorem otsu_degenerate_witness :
    (∀ b ∈ demoHist1, 0 ≤ b.count) ∧
      (demoHist1.filter fun b => decide (0 < b.count)).length < 2 ∧
      (compute_otsu_threshold demoHist1 = -20 ∧
        compute_change_otsu_threshold demoHist1 = -3) :=
  ⟨by decide, by decide,
    otsu_degenerate_histogram_fallback demoHist1 (by decide) (by decide)⟩

/-- Summing a pointwise constant multiple scales the sum. -/
theorem sum_map_mul_const (c : ℚ) (l : List Bucket) (f : Bucket → ℚ) :
    (l.map fun b => c * f b).sum = c * (l.map f).sum := by
  induction l with
  | nil => simp
  | cons b t ih => simp [ih, mul_add]

/-- Scaling a cons. -/
theorem scaleCounts_cons (c : ℚ) (b : Bucket) (t : List Bucket) :
    scaleCounts c (b :: t) = ⟨c * b.count, b.mean⟩ :: scaleCounts c t := rfl

/-- Scaling all inputs of the between-class variance by a positive constant
scales it by the square of the constant. -/
theorem betweenVar_scale (T S w s c : ℚ) (hc : 0 < c) :
    betweenVar (c * T) (c * S) (c * w) (c * s)
      = c ^ 2 * betweenVar T S w s := by
  have hcne : c ≠ 0 := ne_of_gt hc
  have hcond : (0 < c * w ∧ 0 < c * T - c * w) ↔ (0 < w ∧ 0 < T - w) := by
    rw [← mul_sub, mul_pos_iff_of_pos_left hc, mul_pos_iff_of_pos_left hc]
  unfold betweenVar
  by_cases h : 0 < w ∧ 0 < T - w
  · rw [if_pos (hcond.mpr h), if_pos h,
      show c * T - c * w = c * (T - w) from (mul_sub c T w).symm,
      show c * S - c * s = c * (S - s) from (mul_sub c S s).symm,
      mul_div_mul_left s w hcne, mul_div_mul_left (S - s) (T - w) hcne]
    ring
  · rw [if_neg (fun hx => h (hcond.mp hx)), if_neg h, mul_zero]

/-- One Otsu step commutes with scaling counts by a positive constant:
weights and sums scale by `c`, the tracked variance by `c^2`, and the
threshold is unchanged. -/
theorem otsuStep_scale (T S c : ℚ) (hc : 0 < c) (st : OtsuState)
    (b : Bucket) :
    otsuStep (c * T) (c * S)
        ⟨c * st.w0, c * st.sum0, c ^ 2 * st.max_var, st.best_threshold⟩
        ⟨c * b.count, b.mean⟩
      = ⟨c * (otsuStep T S st b).w0, c * (otsuStep T S st b).sum0,
          c ^ 2 * (otsuStep T S st b).max_var,
          (otsuStep T S st b).best_threshold⟩ := by
  have harg1 : c * st.w0 + c * b.count = c * (st.w0 + b.count) :=
    (mul_add c _ _).symm
  have harg2 : c * st.sum0 + c * b.count * b.mean
      = c * (st.sum0 + b.count * b.mean) := by ring
  have hbv : betweenVar (c * T) (c * S) (c * st.w0 + c * b.count)
        (c * st.sum0 + c * b.count * b.mean)
      = c ^ 2 * betweenVar T S (st.w0 + b.count)
          (st.sum0 + b.count * b.mean) := by
    rw [harg1, harg2]
    exact betweenVar_scale T S (st.w0 + b.count) (st.sum0 + b.count * b.mean)
      c hc
  have hcmp : (c ^ 2 * st.max_var <
        betweenVar (c * T) (c * S) (c * st.w0 + c * b.count)
          (c * st.sum0 + c * b.count * b.mean))
      ↔ (st.max_var <
          betweenVar T S (st.w0 + b.count) (st.sum0 + b.count * b.mean)) := by
    rw [hbv]
    exact mul_lt_mul_left (pow_pos hc 2)
  by_cases h : st.max_var <
      betweenVar T S (st.w0 + b.count) (st.sum0 + b.count * b.mean)
  · simp only [otsuStep, if_pos h]
    rw [if_pos (hcmp.mpr h)]
    simp only [OtsuState.mk.injEq]
    exact ⟨harg1, harg2, hbv, trivial⟩
  · simp only [otsuStep, if_neg h]
    rw [if_neg (fun hx => h (hcmp.mp hx))]
    simp only [OtsuState.mk.injEq]
    exact ⟨harg1, harg2, trivial, trivial⟩

/-- The whole Otsu fold commutes with scaling counts by a positive constant. -/
theorem otsuFold_scale (T S c : ℚ) (hc : 0 < c) (l : List Bucket) :
    ∀ st : OtsuState,
      List.foldl (otsuStep (c * T) (c * S))
          ⟨c * st.w0, c * st.sum0, c ^ 2 * st.max_var, st.best_threshold⟩
          (scaleCounts c l)
        = ⟨c * (List.foldl (otsuStep T S) st l).w0,
            c * (List.foldl (otsuStep T S) st l).sum0,
            c ^ 2 * (List.foldl (otsuStep T S) st l).max_var,
            (List.foldl (otsuStep T S) st l).best_threshold⟩ := by
  induction l with
  | nil => intro st; rfl
  | cons b t ih =>
      intro st
      rw [scaleCounts_cons]
      simp only [List.foldl_cons]
      rw [otsuStep_scale T S c hc st b]
      exact ih (otsuStep T S st b)

/-- C4: Multiplying every bucket count by the same positive constant leaves
the returned Otsu threshold unchanged. -/
theorem otsu_scaling_invariance (hist : List Bucket) (init c : ℚ)
    (hc : 0 < c) :
    (otsuRun (scaleCounts c hist) init).best_threshold
      = (otsuRun hist init).best_threshold := by
  have ht : totalCount (scaleCounts c hist) = c * totalCount hist := by
    unfold totalCount scaleCounts
    rw [List.map_map]
    have hfeq : (Bucket.count ∘ fun b : Bucket =>
        (⟨c * b.count, b.mean⟩ : Bucket)) = fun b : Bucket => c * b.count :=
      rfl
    rw [hfeq]
    exact sum_map_mul_const c hist Bucket.count
  have hs : totalSum (scaleCounts c hist) = c * totalSum hist := by
    unfold totalSum scaleCounts
    rw [List.map_map]
    have hfeq : ((fun b : Bucket => b.count * b.mean) ∘ fun b : Bucket =>
        (⟨c * b.count, b.mean⟩ : Bucket))
        = fun b : Bucket => c * (b.count * b.mean) := by
      funext b
      show c * b.count * b.mean = c * (b.count * b.mean)
      ring
    rw [hfeq]
    exact sum_map_mul_const c hist fun b => b.count * b.mean
  unfold otsuRun otsuFold
  rw [ht, hs]
  have hstart := otsuFold_scale (totalCount hist) (totalSum hist) c hc hist
    ⟨0, 0, 0, init⟩
  simp only [mul_zero] at hstart
  rw [hstart]

/-- Witness for C4: tripling the counts of a concrete histogram. -/
theorem otsu_scaling_witness :
    (0 : ℚ) < 3 ∧
      (otsuRun (scaleCounts 3 demoHist2) (-20)).best_threshold
        = (otsuRun demoHist2 (-20)).best_threshold :=
  ⟨by norm_num, otsu_scaling_invariance demoHist2 (-20) 3 (by norm_num)⟩

/-- C6: If either the before or the after size query reports zero qualifying
observations, `_get_sar_composite` returns `None` (not empty imagery, not an
error), and `get_flood_change_detection` returns the explicit cannot-proceed
error without running change detection, water detection, or mask fusion. -/
theorem insufficient_imagery_short_circuit {α β : Type} (b : SarBackend α)
    (detectChange : α → α → β) (detectWater : α → β) (fuse : β → β → β)
    (preDate peekDate r : ℤ)
    (h : b.obsCount (compositeWindow preDate r SearchDirection.before)
          = Except.ok 0 ∨
        b.obsCount (compositeWindow peekDate r SearchDirection.after)
          = Except.ok 0) :
    (b.obsCount (compositeWindow preDate r SearchDirection.before)
          = Except.ok 0 →
        get_sar_composite b preDate r SearchDirection.before = none) ∧
      (b.obsCount (compositeWindow peekDate r SearchDirection.after)
          = Except.ok 0 →
        get_sar_composite b peekDate r SearchDirection.after = none) ∧
      (get_flood_change_detection_run b detectChange detectWater fuse preDate
          peekDate r).1
        = Except.error "无法获取足够的SAR影像进行变化检测" ∧
      Stage.changeDetection ∉
        (get_flood_change_detection_run b detectChange detectWater fuse
          preDate peekDate r).2 ∧
      Stage.waterDetection ∉
        (get_flood_change_detection_run b detectChange detectWater fuse
          preDate peekDate r).2 ∧
      Stage.maskFusion ∉
        (get_flood_change_detection_run b detectChange detectWater fuse
          preDate peekDate r).2 := by
  have hnone : ∀ (t : ℤ) (dir : SearchDirection),
      b.obsCount (compositeWindow t r dir) = Except.ok 0 →
      get_sar_composite b t r dir = none := by
    intro t dir hq
    unfold get_sar_composite
    rw [hq]
  have hrun : get_flood_change_detection_run b detectChange detectWater fuse
      preDate peekDate r
      = (Except.error "无法获取足够的SAR影像进行变化检测",
          [Stage.compositeBuild, Stage.compositeBuild]) := by
    unfold get_flood_change_detection_run
    rcases h with h | h
    · rw [hnone preDate SearchDirection.before h]
    · rw [hnone peekDate SearchDirection.after h]
      cases get_sar_composite b preDate r SearchDirection.before <;> rfl
  have hnotmem : ∀ s : Stage, s ≠ Stage.compositeBuild →
      s ∉ [Stage.compositeBuild, Stage.compositeBuild] := by
    intro s hs hmem
    rcases List.mem_cons.mp hmem with hh | hmem2
    · exact hs hh
    · rcases List.mem_cons.mp hmem2 with hh | hh
      · exact hs hh
      · exact absurd hh (List.not_mem_nil s)
  refine ⟨hnone preDate SearchDirection.before,
    hnone peekDate SearchDirection.after, ?_, ?_, ?_, ?_⟩
  · rw [hrun]
  · rw [hrun]
    exact hnotmem Stage.changeDetection (by decide)
  · rw [hrun]
    exact hnotmem Stage.waterDetection (by decide)
  · rw [hrun]
    exact hnotmem Stage.maskFusion (by decide)

/-- Witness for C6 on a concrete backend that always reports zero imagery. -/
theorem insufficient_imagery_witness :
    (cBackendZero.obsCount (compositeWindow 100 15 SearchDirection.before)
          = Except.ok 0 ∨
        cBackendZero.obsCount (compositeWindow 200 15 SearchDirection.after)
          = Except.ok 0) ∧
      ((cBackendZero.obsCount (compositeWindow 100 15 SearchDirection.before)
            = Except.ok 0 →
          get_sar_composite cBackendZero 100 15 SearchDirection.before
            = none) ∧
        (cBackendZero.obsCount (compositeWindow 200 15 SearchDirection.after)
            = Except.ok 0 →
          get_sar_composite cBackendZero 200 15 SearchDirection.after
            = none) ∧
        (get_flood_change_detection_run cBackendZero cDetectChange
            cDetectWater cFuse 100 200 15).1
          = Except.error "无法获取足够的SAR影像进行变化检测" ∧
        Stage.changeDetection ∉
          (get_flood_change_detection_run cBackendZero cDetectChange
            cDetectWater cFuse 100 200 15).2 ∧
        Stage.waterDetection ∉
          (get_flood_change_detection_run cBackendZero cDetectChange
            cDetectWater cFuse 100 200 15).2 ∧
        Stage.maskFusion ∉
          (get_flood_change_detection_run cBackendZero cDetectChange
            cDetectWater cFuse 100 200 15).2) :=
  ⟨Or.inl rfl,
    insufficient_imagery_short_circuit cBackendZero cDetectChange
      cDetectWater cFuse 100 200 15 (Or.inl rfl)⟩

/-- C7 counterexample: a concrete run whose before-composite size query
raises a backend/service error and a concrete run that finds zero qualifying
observations produce identical caller-visible results — the code converts
both to the same `None` and then the same error output, so the two failure
kinds are not surfaced distinctly. -/
theorem backend_failure_not_distinct_counterexample :
    get_flood_change_detection_run cBackendFail cDetectChange cDetectWater
        cFuse 100 200 15
      = get_flood_change_detection_run cBackendZero cDetectChange
        cDetectWater cFuse 100 200 15 ∧
      (get_flood_change_detection_run cBackendFail cDetectChange cDetectWater
          cFuse 100 200 15).1
        = Except.error "无法获取足够的SAR影像进行变化检测" := ⟨rfl, rfl⟩

/-- C7 (amended): A backend failure during the before-composite size query
is converted by `_get_sar_composite` to the same `None` as the
zero-observation case, so the two runs are indistinguishable to the caller:
for every pair of backends, one failing and one reporting zero observations,
the pipeline results are equal, both the cannot-proceed error. -/
theorem backend_failure_matches_zero_observations {α β : Type}
    (b1 b2 : SarBackend α) (detectChange : α → α → β) (detectWater : α → β)
    (fuse : β → β → β) (preDate peekDate r : ℤ) (e : String)
    (h1 : b1.obsCount (compositeWindow preDate r SearchDirection.before)
        = Except.error e)
    (h2 : b2.obsCount (compositeWindow preDate r SearchDirection.before)
        = Except.ok 0) :
    get_flood_change_detection_run b1 detectChange detectWater fuse preDate
        peekDate r
      = get_flood_change_detection_run b2 detectChange detectWater fuse
        preDate peekDate r ∧
      (get_flood_change_detection_run b1 detectChange detectWater fuse
          preDate peekDate r).1
        = Except.error "无法获取足够的SAR影像进行变化检测" := by
  have hn1 : get_sar_composite b1 preDate r SearchDirection.before = none := by
    unfold get_sar_composite
    rw [h1]
  have hn2 : get_sar_composite b2 preDate r SearchDirection.before = none := by
    unfold get_sar_composite
    rw [h2]
  have hrun : ∀ bb : SarBackend α,
      get_sar_composite bb preDate r SearchDirection.before = none →
      get_flood_change_detection_run bb detectChange detectWater fuse preDate
          peekDate r
        = (Except.error "无法获取足够的SAR影像进行变化检测",
            [Stage.compositeBuild, Stage.compositeBuild]) := by
    intro bb hbn
    unfold get_flood_change_detection_run
    rw [hbn]
  rw [hrun b1 hn1, hrun b2 hn2]
  exact ⟨rfl, rfl⟩

/-- Witness for the amended C7 at concrete backends. -/
theorem backend_failure_matches_zero_witness :
    cBackendFail.obsCount (compositeWindow 100 15 SearchDirection.before)
        = Except.error "network unreachable" ∧
      cBackendZero.obsCount (compositeWindow 100 15 SearchDirection.before)
        = Except.ok 0 ∧
      (get_flood_change_detection_run cBackendFail cDetectChange cDetectWater
          cFuse 100 200 15
        = get_flood_change_detection_run cBackendZero cDetectChange
          cDetectWater cFuse 100 200 15 ∧
        (get_flood_change_detection_run cBackendFail cDetectChange
            cDetectWater cFuse 100 200 15).1
          = Except.error "无法获取足够的SAR影像进行变化检测") :=
  ⟨rfl, rfl,
    backend_failure_matches_zero_observations cBackendFail cBackendZero
      cDetectChange cDetectWater cFuse 100 200 15 "network unreachable" rfl
      rfl⟩

/-- C8: The water-detection mask is exactly the 0-1 raster of the predicate
"VV value strictly below the Otsu threshold of the region's VV histogram",
and the change-detection mask on the during-minus-before difference is
exactly the 0-1 raster of "difference strictly below the change Otsu
threshold". -/
theorem detector_masks_are_threshold_cuts {P : Type}
    (histVV histChange : List Bucket) (vv vvPre vvPeek : P → ℚ) (p : P) :
    (otsu_water_detection histVV vv p = 1 ↔
        vv p < compute_otsu_threshold histVV) ∧
      (otsu_water_detection histVV vv p = 0 ↔
        ¬vv p < compute_otsu_threshold histVV) ∧
      (otsu_change_detection histChange (change_index vvPre vvPeek) p = 1 ↔
        vvPeek p - vvPre p < compute_change_otsu_threshold histChange) ∧
      (otsu_change_detection histChange (change_index vvPre vvPeek) p = 0 ↔
        ¬vvPeek p - vvPre p < compute_change_otsu_threshold histChange) := by
  refine ⟨?_, ?_, ?_, ?_⟩ <;>
    · simp only [otsu_water_detection, otsu_change_detection, change_index,
        eeLt]
      split_ifs with h <;> simp [h]

/-- C9 counterexample: with a single cropland pixel of exact affected area
0.1234 km², the reported value is the rounded 0.12, not the area-weighted
sum itself. -/
theorem landcover_reported_value_rounded_counterexample :
    landcover_affected_area cPixels cFlood cWc cArea 40 = 1234 / 10000 ∧
      assess_landcover_impact cPixels cFlood cWc cArea = [(40, 12 / 100)] ∧
      (12 : ℚ) / 100 ≠ 1234 / 10000 := by
  have harea40 : landcover_affected_area cPixels cFlood cWc cArea 40
      = 1234 / 10000 := by
    norm_num [landcover_affected_area, cPixels, cFlood, cWc, cArea, eeEqInt]
  have hareaNe : ∀ cls : ℤ, cls ≠ 40 →
      landcover_affected_area cPixels cFlood cWc cArea cls = 0 := by
    intro cls hcls
    simp [landcover_affected_area, cPixels, cFlood, cWc, cArea, eeEqInt,
      Ne.symm hcls]
  have hfloor : ⌊(100 : ℚ) * (1234 / 10000)⌋ = 12 := by
    rw [Int.floor_eq_iff]
    norm_num
  have hround : pyround2 (1234 / 10000) = 12 / 100 := by
    unfold pyround2
    rw [hfloor]
    norm_num
  have himpact : assess_landcover_impact cPixels cFlood cWc cArea
      = [(40, 12 / 100)] := by
    unfold assess_landcover_impact landcover_classes
    simp only [List.filterMap_cons, List.filterMap_nil]
    rw [harea40, hareaNe 50 (by decide), hareaNe 10 (by decide),
      hareaNe 30 (by decide), hareaNe 20 (by decide),
      hareaNe 90 (by decide), hround]
    norm_num
  exact ⟨harea40, himpact, by norm_num⟩

/-- C9 (amended): For each class of the fixed land-cover class set, the
class appears in the output exactly when its affected area — the
area-weighted sum of `floodMask AND (landcover == class)` — exceeds
0.01 km², and the reported value is that area rounded to two decimal
places; in particular every class whose affected area is below 0.01 km² is
omitted. -/
theorem landcover_breakdown_semantics {P : Type} (pixels : List P)
    (floodMask : P → ℚ) (worldcover : P → ℤ) (pixelAreaKm2 : P → ℚ)
    (cls : ℤ) (hcls : cls ∈ landcover_classes) :
    (1 / 100 <
        landcover_affected_area pixels floodMask worldcover pixelAreaKm2
          cls →
        (cls, pyround2 (landcover_affected_area pixels floodMask worldcover
            pixelAreaKm2 cls))
          ∈ assess_landcover_impact pixels floodMask worldcover
              pixelAreaKm2) ∧
      (∀ v, (cls, v) ∈ assess_landcover_impact pixels floodMask worldcover
            pixelAreaKm2 →
        1 / 100 < landcover_affected_area pixels floodMask worldcover
            pixelAreaKm2 cls ∧
          v = pyround2 (landcover_affected_area pixels floodMask worldcover
              pixelAreaKm2 cls)) ∧
      (landcover_affected_area pixels floodMask worldcover pixelAreaKm2 cls
          ≤ 1 / 100 →
        ∀ v, (cls, v) ∉ assess_landcover_impact pixels floodMask worldcover
            pixelAreaKm2) := by
  have hmem : ∀ v, (cls, v) ∈ assess_landcover_impact pixels floodMask
        worldcover pixelAreaKm2 →
      1 / 100 < landcover_affected_area pixels floodMask worldcover
          pixelAreaKm2 cls ∧
        v = pyround2 (landcover_affected_area pixels floodMask worldcover
            pixelAreaKm2 cls) := by
    intro v hv
    unfold assess_landcover_impact at hv
    obtain ⟨cOther, hcOther, heq⟩ := List.mem_filterMap.mp hv
    by_cases hgt : 1 / 100 <
        landcover_affected_area pixels floodMask worldcover pixelAreaKm2
          cOther
    · rw [if_pos hgt] at heq
      have hpair := Option.some.inj heq
      rw [Prod.mk.injEq] at hpair
      obtain ⟨h1, h2⟩ := hpair
      subst h1
      exact ⟨hgt, h2.symm⟩
    · rw [if_neg hgt] at heq
      exact Option.noConfusion heq
  refine ⟨?_, hmem, ?_⟩
  · intro ha
    unfold assess_landcover_impact
    exact List.mem_filterMap.mpr ⟨cls, hcls, by rw [if_pos ha]⟩
  · intro hle v hv
    exact absurd (hmem v hv).1 (not_lt.mpr hle)

/-- Witness for the amended C9 at the concrete one-pixel region. -/
theorem landcover_breakdown_witness :
    (40 : ℤ) ∈ landcover_classes ∧
      ((1 / 100 < landcover_affected_area cPixels cFlood cWc cArea 40 →
          (40, pyround2 (landcover_affected_area cPixels cFlood cWc cArea
              40))
            ∈ assess_landcover_impact cPixels cFlood cWc cArea) ∧
        (∀ v, (40, v) ∈ assess_landcover_impact cPixels cFlood cWc cArea →
          1 / 100 < landcover_affected_area cPixels cFlood cWc cArea 40 ∧
            v = pyround2 (landcover_affected_area cPixels cFlood cWc cArea
                40)) ∧
        (landcover_affected_area cPixels cFlood cWc cArea 40 ≤ 1 / 100 →
          ∀ v, (40, v) ∉ assess_landcover_impact cPixels cFlood cWc
              cArea)) :=
  ⟨by decide, landcover_breakdown_semantics cPixels cFlood cWc cArea 40
    (by decide)⟩

/-- Each Otsu fold step either keeps the running threshold or replaces it by
the current bucket mean, so the final threshold is the seed or some mean. -/
theorem otsu_fold_threshold_cases (T S : ℚ) (l : List Bucket) :
    ∀ st : OtsuState,
      (List.foldl (otsuStep T S) st l).best_threshold = st.best_threshold ∨
        ∃ b ∈ l, (List.foldl (otsuStep T S) st l).best_threshold = b.mean := by
  induction l with
  | nil => intro st; exact Or.inl rfl
  | cons b t ih =>
      intro st
      have hstep : (otsuStep T S st b).best_threshold = st.best_threshold ∨
          (otsuStep T S st b).best_threshold = b.mean := by
        unfold otsuStep
        split_ifs with h
        · exact Or.inr rfl
        · exact Or.inl rfl
      simp only [List.foldl_cons]
      rcases ih (otsuStep T S st b) with h1 | ⟨bOther, hbOther, h1⟩
      · rcases hstep with h2 | h2
        · exact Or.inl (h1.trans h2)
        · exact Or.inr ⟨b, List.mem_cons_self b t, h1.trans h2⟩
      · exact Or.inr ⟨bOther, List.mem_cons_of_mem b hbOther, h1⟩

/-- C10: For every histogram and every initial threshold, the value the
Otsu solver returns is either the initial threshold or the mean of one of
the histogram's buckets; in particular the water variant returns -20 or a
bucket mean and the change variant returns -3 or a bucket mean. -/
theorem otsu_threshold_provenance (hist : List Bucket) (init : ℚ) :
    ((otsuRun hist init).best_threshold = init ∨
        ∃ b ∈ hist, (otsuRun hist init).best_threshold = b.mean) ∧
      (compute_otsu_threshold hist = -20 ∨
        ∃ b ∈ hist, compute_otsu_threshold hist = b.mean) ∧
      (compute_change_otsu_threshold hist = -3 ∨
        ∃ b ∈ hist, compute_change_otsu_threshold hist = b.mean) := by
  refine ⟨?_, ?_, ?_⟩
  · exact otsu_fold_threshold_cases (totalCount hist) (totalSum hist) hist
      ⟨0, 0, 0, init⟩
  · exact otsu_fold_threshold_cases (totalCount hist) (totalSum hist) hist
      ⟨0, 0, 0, -20⟩
  · exact otsu_fold_threshold_cases (totalCount hist) (totalSum hist) hist
      ⟨0, 0, 0, -3⟩
